import Mathlib

/-!
A shallow embedding of the instalink backend (backend.js and its sibling
revisions): the custom-name sanitizer of the upload route, the nanoid-based
identifier generator, the upload handler together with its blob-store and
registry effects, and the retrieval handler of the proxy-stream revision,
followed by proofs about them.
-/

/-- Strings are modelled as lists of unicode scalar values. -/
abbrev Str := List Char

/-- JavaScript whitespace, by code point: the class matched by the regular
expression class \s, which is also exactly what String.prototype.trim
removes from the two ends. -/
def isWs (c : Char) : Bool :=
  let n := c.toNat
  n = 9 || n = 10 || n = 11 || n = 12 || n = 13 || n = 32 || n = 160 ||
  n = 0x1680 || (0x2000 ≤ n && n ≤ 0x200a) || n = 0x2028 || n = 0x2029 ||
  n = 0x202f || n = 0x205f || n = 0x3000 || n = 0xfeff

/-- Membership in the character class [a-zA-Z0-9-_] that the second replace
of the sanitizer keeps. -/
def isAllowed (c : Char) : Bool :=
  let n := c.toNat
  (97 ≤ n && n ≤ 122) || (65 ≤ n && n ≤ 90) || (48 ≤ n && n ≤ 57) ||
  n = 45 || n = 95

/-- customName.trim(): whitespace dropped from both ends. -/
def jsTrim (l : Str) : Str :=
  ((l.dropWhile isWs).reverse.dropWhile isWs).reverse

/-- Streaming transducer for the global replace of one-or-more whitespace
by a hyphen: the flag records whether the scanner is inside a whitespace
run whose hyphen has already been emitted. -/
def collapseAux : Bool → Str → Str
  | _, [] => []
  | inRun, c :: cs =>
    if isWs c then
      if inRun then collapseAux true cs
      else '-' :: collapseAux true cs
    else c :: collapseAux false cs

/-- replace with the global pattern of one-or-more whitespace and the
replacement hyphen: every maximal whitespace run becomes a single hyphen. -/
def collapseWs (l : Str) : Str :=
  collapseAux false l

/-- The whole sanitizer chain of the upload route, translated from
customName.trim().replace(whitespace-run, hyphen).replace(not-allowed,
empty-string). -/
def sanitize (l : Str) : Str :=
  (collapseWs (jsTrim l)).filter isAllowed

/-- Splitting into the maximal whitespace-free words, used by the spec-side
restatement of the sanitizer. -/
def wordsWs : Str → List Str
  | [] => []
  | c :: cs =>
    if isWs c then wordsWs (cs.dropWhile isWs)
    else (c :: cs.takeWhile (fun x => !isWs x)) :: wordsWs (cs.dropWhile (fun x => !isWs x))
termination_by l => l.length
decreasing_by
  all_goals simp_wf
  · have h := (List.dropWhile_sublist (l := cs) isWs).length_le
    omega
  · have h := (List.dropWhile_sublist (l := cs) (fun x => !isWs x)).length_le
    omega

/-- Joining words with single hyphens. -/
def joinWords : List Str → Str
  | [] => []
  | [w] => w
  | w :: ws => w ++ '-' :: joinWords ws

/-- Sanitization as the spec words it: trim leading and trailing
whitespace, then replace every maximal internal whitespace run by a single
hyphen, then delete every character outside the allowed class, in that
order. -/
def specSanitize (l : Str) : Str :=
  (joinWords (wordsWs (jsTrim l))).filter isAllowed

/-- Whether the final character of a string is whitespace. -/
def endsWs (l : Str) : Bool :=
  match l.getLast? with
  | some c => isWs c
  | none => false

example : sanitize "  My  File!.pdf ".data = "My-Filepdf".data := by decide
example : sanitize "!!!".data = [] := by decide
example : sanitize "demo".data = "demo".data := by decide
example : sanitize "a !! b".data = "a--b".data := by decide

/-- Modelled from the spec: generateCandidateId is the call nanoid(8) into
the external nanoid package, which is not part of this repository. Its
documented behavior is to draw each character from this fixed 64-character
URL-safe alphabet, the package constant urlAlphabet. -/
def nanoidAlphabet : Str :=
  "useandom-26T198340PX75pxJACKVERYMINDBUSHWOLF_GQZbfghjklqvwyzrict".data

/-- Modelled from the spec: nanoid with the randomness source abstracted as
a seed function giving the random byte for each position; nanoid masks the
byte down to an index into its 64-character alphabet. -/
def nanoidM (seed : Nat → Nat) (n : Nat) : Str :=
  (List.range n).map (fun i => nanoidAlphabet.getD (seed i % 64) 'u')

/-- A registry record, after the mongoose fileSchema of backend.js. The
createdAt default of the schema is supplied by the caller as the save-time
clock value. -/
structure FileRecord where
  shortId : Str
  originalName : Str
  fileUrl : Str
  mimeType : Option Str
  cloudinaryId : Str
  createdAt : Nat
deriving DecidableEq, Repr

/-- The file object that multer leaves in the first slot of req.files once
the storage engine has already stored the blob: its original client name,
the storage URL or disk path, the MIME type, and the storage-assigned id. -/
structure UploadedFile where
  originalname : Str
  path : Str
  mimetype : Option Str
  filename : Str
deriving DecidableEq, Repr

/-- The durable external state: the mongo collection of records, and the
identifiers of the blobs currently held by the blob store. -/
structure St where
  registry : List FileRecord
  blobs : List Str
deriving DecidableEq, Repr

/-- The JSON replies of the upload route, by their error identity. -/
inductive UploadResp where
  | noFile
  | invalidName
  | nameTaken
  | serverError
  | ok (link : Str)
deriving DecidableEq, Repr

/-- The HTTP status attached to each upload reply in the source. -/
def UploadResp.statusCode : UploadResp → Nat
  | UploadResp.noFile => 400
  | UploadResp.invalidName => 400
  | UploadResp.nameTaken => 409
  | UploadResp.serverError => 500
  | UploadResp.ok _ => 200

/-- File.findOne on the shortId key. -/
def findOne (registry : List FileRecord) (sid : Str) : Option FileRecord :=
  registry.find? (fun r => r.shortId == sid)

/-- JavaScript truthiness of an optional string field: undefined and the
empty string are falsy. -/
def truthy : Option Str → Bool
  | none => false
  | some s => !s.isEmpty

/-- The path segment of the shareable link. -/
def fileRoute : Str := "/file/".data

/-- The save step of the upload route: newFile.save() under the unique
index on shortId. A duplicate key makes save reject, and the route catch
answers with the 500 reply; on success the record is appended and the
shareable link built from the base URL is returned. -/
def saveRecord (st : St) (file : UploadedFile) (sid : Str) (now : Nat) (baseUrl : Str) :
    UploadResp × St :=
  match findOne st.registry sid with
  | some _ => (UploadResp.serverError, st)
  | none =>
    (UploadResp.ok (baseUrl ++ fileRoute ++ sid),
     ⟨st.registry ++ [⟨sid, file.originalname, file.path, file.mimetype, file.filename, now⟩],
      st.blobs⟩)

/-- The POST /upload route of backend.js, including the multer middleware
step that has already written the blob to the store before the handler body
runs. destroyOk tells whether the cloudinary destroy call on the name-taken
branch succeeds; when destroy rejects, the awaited error lands in the route
catch, which answers with the 500 reply. -/
def uploadRequest (st : St) (file? : Option UploadedFile) (customName : Option Str)
    (seed : Nat → Nat) (destroyOk : Bool) (now : Nat) (baseUrl : Str) : UploadResp × St :=
  match file? with
  | none => (UploadResp.noFile, st)
  | some file =>
    let st1 : St := ⟨st.registry, st.blobs ++ [file.filename]⟩
    if truthy customName then
      let sanitizedName := sanitize (customName.getD [])
      if sanitizedName.isEmpty then (UploadResp.invalidName, st1)
      else
        match findOne st1.registry sanitizedName with
        | some _ =>
          if destroyOk then
            (UploadResp.nameTaken, ⟨st1.registry, st1.blobs.erase file.filename⟩)
          else (UploadResp.serverError, st1)
        | none => saveRecord st1 file sanitizedName now baseUrl
    else saveRecord st1 file (nanoidM seed 8) now baseUrl

/-- The save step of the local-disk revision: the record keeps the disk
path in the locator slot and has no storage-assigned id. -/
def saveRecordLocal (st : St) (file : UploadedFile) (sid : Str) (now : Nat) (baseUrl : Str) :
    UploadResp × St :=
  match findOne st.registry sid with
  | some _ => (UploadResp.serverError, st)
  | none =>
    (UploadResp.ok (baseUrl ++ fileRoute ++ sid),
     ⟨st.registry ++ [⟨sid, file.originalname, file.path, file.mimetype, [], now⟩],
      st.blobs⟩)

/-- The POST /upload route of the local-disk revision (src/unnamed/part_000):
multer diskStorage has already written the uploaded bytes at file.path when
the handler body runs, and the name-taken branch answers 409 without any
delete of that file. -/
def uploadRequestLocal (st : St) (file? : Option UploadedFile) (customName : Option Str)
    (seed : Nat → Nat) (now : Nat) (baseUrl : Str) : UploadResp × St :=
  match file? with
  | none => (UploadResp.noFile, st)
  | some file =>
    let st1 : St := ⟨st.registry, st.blobs ++ [file.path]⟩
    if truthy customName then
      let sanitizedName := sanitize (customName.getD [])
      if sanitizedName.isEmpty then (UploadResp.invalidName, st1)
      else
        match findOne st1.registry sanitizedName with
        | some _ => (UploadResp.nameTaken, st1)
        | none => saveRecordLocal st1 file sanitizedName now baseUrl
    else saveRecordLocal st1 file (nanoidM seed 8) now baseUrl

/-- What axios reports for the upstream GET once it answers: a resolved
stream of bytes, or a rejection carrying the HTTP status of the upstream
response. -/
inductive UpstreamBehavior where
  | ok (body : Str)
  | httpError (statusCode : Nat)
deriving DecidableEq, Repr

/-- The blob host seen from one URL: how many milliseconds it takes to
answer and what it answers. -/
structure Upstream where
  duration : Nat
  behavior : UpstreamBehavior
deriving DecidableEq, Repr

/-- Outcome of an axios GET carrying a timeout. -/
inductive FetchOutcome where
  | timedOut
  | httpError (statusCode : Nat)
  | ok (body : Str)
deriving DecidableEq, Repr

/-- axios GET with a timeout in milliseconds: the request aborts with the
ECONNABORTED error when the upstream takes longer than the timeout,
rejects with the response status on a non-success answer, and otherwise
resolves to the stream. -/
def axiosGet (up : Upstream) (timeoutMs : Nat) : FetchOutcome :=
  if timeoutMs < up.duration then FetchOutcome.timedOut
  else
    match up.behavior with
    | UpstreamBehavior.ok body => FetchOutcome.ok body
    | UpstreamBehavior.httpError s => FetchOutcome.httpError s

/-- The replies of the retrieval route of the proxy-stream revision. -/
inductive RetrieveResp where
  | notFound (html : Str)
  | gatewayTimeout (html : Str)
  | upstreamNotFound (html : Str)
  | serverError (html : Str)
  | okStream (contentType : Str) (contentDisposition : Str) (body : Str)
deriving DecidableEq, Repr

/-- The HTTP status attached to each retrieval reply in the source. -/
def RetrieveResp.statusCode : RetrieveResp → Nat
  | RetrieveResp.notFound _ => 404
  | RetrieveResp.gatewayTimeout _ => 504
  | RetrieveResp.upstreamNotFound _ => 404
  | RetrieveResp.serverError _ => 500
  | RetrieveResp.okStream _ _ _ => 200

/-- The human-readable body of the unknown-id 404. -/
def notFoundHtml : Str :=
  "<h1>File not found</h1><p>The link may be incorrect or the file has been removed.</p>".data

/-- The body of the 504 sent when the upstream fetch times out. -/
def timeoutHtml : Str :=
  "<h1>Gateway Timeout</h1><p>The server took too long to retrieve the file from storage.</p>".data

/-- The body of the 404 sent when the upstream itself answers not-found. -/
def storageGoneHtml : Str :=
  "<h1>File not found on storage</h1><p>The file may have been deleted.</p>".data

/-- The body of the generic retrieval 500. -/
def retrieveFailHtml : Str :=
  "<h1>Server error while retrieving file</h1>".data

/-- The fallback MIME type of the proxy-stream response. -/
def octetStream : Str := "application/octet-stream".data

/-- The Content-Disposition header built from the stored original name. -/
def contentDispositionFor (name : Str) : Str :=
  "attachment; filename=\"".data ++ name ++ "\"".data

/-- GET /file/:shortId in the proxy-stream revision (src/unnamed/part_002):
look up the record, fetch its URL through axios with the 15000 ms timeout,
and either pipe the bytes through under the record headers or map the
axios error, checking the timeout code before the upstream 404. The second
component lists the upstream URLs the route actually fetched. -/
def retrieveProxy (registry : List FileRecord) (sid : Str) (upstreamOf : Str → Upstream) :
    RetrieveResp × List Str :=
  match findOne registry sid with
  | none => (RetrieveResp.notFound notFoundHtml, [])
  | some file =>
    match axiosGet (upstreamOf file.fileUrl) 15000 with
    | FetchOutcome.timedOut => (RetrieveResp.gatewayTimeout timeoutHtml, [file.fileUrl])
    | FetchOutcome.httpError s =>
      if s = 404 then (RetrieveResp.upstreamNotFound storageGoneHtml, [file.fileUrl])
      else (RetrieveResp.serverError retrieveFailHtml, [file.fileUrl])
    | FetchOutcome.ok body =>
      (RetrieveResp.okStream (file.mimeType.getD octetStream)
        (contentDispositionFor file.originalName) body, [file.fileUrl])


/-! ### Lemmas about the sanitizer -/

theorem head_dropWhile_false (p : Char → Bool) (l : Str) :
    ∀ x, (l.dropWhile p).head? = some x → p x = false := by
  intro x hx
  have h := List.head?_dropWhile_not p l
  rw [hx] at h
  exact h

theorem mem_takeWhile_pred (p : Char → Bool) (l : Str) :
    ∀ x ∈ l.takeWhile p, p x = true := by
  have h := List.all_takeWhile (p := p) (l := l)
  exact fun x hx => List.all_eq_true.mp h x hx

theorem collapseAux_push_nonWs (r : Str) :
    ∀ t : Str, (∀ x ∈ t, isWs x = false) →
      collapseAux false (t ++ r) = t ++ collapseAux false r := by
  intro t
  induction t with
  | nil => intro _; rfl
  | cons c cs ih =>
    intro h
    have hc : isWs c = false := h c (by simp)
    simp [collapseAux, hc, ih fun x hx => h x (by simp [hx])]

theorem collapseAux_skip_ws (r : Str) :
    ∀ w : Str, (∀ x ∈ w, isWs x = true) →
      collapseAux true (w ++ r) = collapseAux true r := by
  intro w
  induction w with
  | nil => intro _; rfl
  | cons c cs ih =>
    intro h
    have hc : isWs c = true := h c (by simp)
    simp [collapseAux, hc, ih fun x hx => h x (by simp [hx])]

theorem joinWords_cons_of_ne_nil (w : Str) (ws : List Str) (h : ws ≠ []) :
    joinWords (w :: ws) = w ++ '-' :: joinWords ws := by
  cases ws with
  | nil => exact absurd rfl h
  | cons a as => rfl

theorem mem_of_getLast?_eq {l : Str} {x : Char} (h : l.getLast? = some x) : x ∈ l := by
  obtain ⟨hne, rfl⟩ := List.mem_getLast?_eq_getLast (x := x) (l := l) h
  exact List.getLast_mem hne

theorem endsWs_cons_of_ne_nil (c : Char) (l : Str) (h : l ≠ []) :
    endsWs (c :: l) = endsWs l := by
  cases l with
  | nil => exact absurd rfl h
  | cons a as => simp [endsWs]

theorem endsWs_append_of_ne_nil (t r : Str) (h : r ≠ []) :
    endsWs (t ++ r) = endsWs r := by
  have hx : ∃ x, r.getLast? = some x := by
    cases hr : r.getLast? with
    | none => exact absurd (List.getLast?_eq_none_iff.mp hr) h
    | some x => exact ⟨x, rfl⟩
  obtain ⟨x, hx⟩ := hx
  simp [endsWs, List.getLast?_append, hx]

theorem endsWs_eq_false_of_all (l : Str) (h : ∀ x ∈ l, isWs x = false) :
    endsWs l = false := by
  cases hl : l.getLast? with
  | none => simp [endsWs, hl]
  | some x => simp [endsWs, hl, h x (mem_of_getLast?_eq hl)]

theorem endsWs_eq_true_of_all (l : Str) (hne : l ≠ []) (h : ∀ x ∈ l, isWs x = true) :
    endsWs l = true := by
  cases hl : l.getLast? with
  | none => exact absurd (List.getLast?_eq_none_iff.mp hl) hne
  | some x => simp [endsWs, hl, h x (mem_of_getLast?_eq hl)]

theorem endsWs_dropWhile_of_ne_nil (p : Char → Bool) (l : Str) (h : l.dropWhile p ≠ []) :
    endsWs (l.dropWhile p) = endsWs l := by
  conv_rhs => rw [← List.takeWhile_append_dropWhile (p := p) (l := l)]
  exact (endsWs_append_of_ne_nil _ _ h).symm

set_option maxHeartbeats 1600000 in
theorem wordsWs_nil : wordsWs [] = [] := by rw [wordsWs]

theorem wordsWs_cons (c : Char) (cs : Str) :
    wordsWs (c :: cs) =
      if isWs c then wordsWs (cs.dropWhile isWs)
      else (c :: cs.takeWhile (fun x => !isWs x)) :: wordsWs (cs.dropWhile (fun x => !isWs x)) := by
  rw [wordsWs]

theorem collapse_eq_joinWords : ∀ (n : Nat) (l : Str), l.length ≤ n →
    (∀ x, l.head? = some x → isWs x = false) →
    collapseWs l = joinWords (wordsWs l) ++ (if endsWs l then ['-'] else []) := by
  intro n
  induction n with
  | zero =>
    intro l hlen _
    have hl : l = [] := List.length_eq_zero.mp (Nat.le_zero.mp hlen)
    subst hl
    simp [collapseWs, collapseAux, wordsWs_nil, joinWords, endsWs]
  | succ n ih =>
    intro l hlen hhead
    cases l with
    | nil => simp [collapseWs, collapseAux, wordsWs_nil, joinWords, endsWs]
    | cons c cs =>
      have hc : isWs c = false := hhead c rfl
      set t := cs.takeWhile (fun x => !isWs x) with ht
      set r := cs.dropWhile (fun x => !isWs x) with hr0
      have hcs : t ++ r = cs := by
        rw [ht, hr0]
        exact List.takeWhile_append_dropWhile _ _
      have htw : ∀ x ∈ t, isWs x = false := by
        intro x hx
        have := mem_takeWhile_pred (fun x => !isWs x) cs x hx
        simpa using this
      have hct : ∀ x ∈ c :: t, isWs x = false := by
        intro x hx
        rcases List.mem_cons.mp hx with h | h
        · subst h; exact hc
        · exact htw x h
      have hw1 : wordsWs (c :: cs) = (c :: t) :: wordsWs r := by
        rw [wordsWs_cons]
        simp [hc]
      have hl1 : collapseWs (c :: cs) = (c :: t) ++ collapseAux false r := by
        have : (c :: t) ++ r = c :: cs := by rw [List.cons_append, hcs]
        rw [collapseWs, ← this]
        exact collapseAux_push_nonWs r (c :: t) hct
      cases hr : r with
      | nil =>
        have hcst : cs = t := by rw [← hcs, hr, List.append_nil]
        have hends : endsWs (c :: cs) = false := by
          refine endsWs_eq_false_of_all _ ?_
          intro x hx
          rcases List.mem_cons.mp hx with h | h
          · subst h; exact hc
          · exact htw x (hcst ▸ h)
        rw [hl1, hw1, hr, hends]
        simp [collapseAux, wordsWs, joinWords]
      | cons w r1 =>
        have hwws : isWs w = true := by
          have := head_dropWhile_false (fun x => !isWs x) cs w (by rw [← hr0, hr]; rfl)
          simpa using this
        have hcsne : cs ≠ [] := by
          intro h
          rw [h] at hcs
          rcases List.append_eq_nil.mp hcs with ⟨_, h2⟩
          rw [hr] at h2
          exact List.cons_ne_nil _ _ h2
        have hends1 : endsWs (c :: cs) = endsWs (w :: r1) := by
          rw [endsWs_cons_of_ne_nil c cs hcsne, ← hcs, hr]
          exact endsWs_append_of_ne_nil t (w :: r1) (List.cons_ne_nil _ _)
        set u := r1.dropWhile isWs with hu0
        have hsw : ∀ x ∈ r1.takeWhile isWs, isWs x = true := mem_takeWhile_pred isWs r1
        have hl2 : collapseAux false r = '-' :: collapseAux true u := by
          have h1 : collapseAux false (w :: r1) = '-' :: collapseAux true r1 := by
            simp [collapseAux, hwws]
          rw [hr, h1, hu0]
          congr 1
          conv_lhs => rw [← List.takeWhile_append_dropWhile (p := isWs) (l := r1)]
          exact collapseAux_skip_ws _ _ hsw
        have hw2 : wordsWs r = wordsWs u := by
          rw [hr, wordsWs_cons]
          simp [hwws, hu0]
        cases hu : u with
        | nil =>
          have hr1 : ∀ x ∈ r1, isWs x = true := by
            have := List.dropWhile_eq_nil_iff.mp (hu0 ▸ hu)
            simpa using this
          have hends2 : endsWs (w :: r1) = true := by
            refine endsWs_eq_true_of_all _ (List.cons_ne_nil _ _) ?_
            intro x hx
            rcases List.mem_cons.mp hx with h | h
            · subst h; exact hwws
            · exact hr1 x h
          rw [hl1, hl2, hw1, hw2, hu, hends1, hends2]
          simp [collapseAux, wordsWs_nil, joinWords]
        | cons x xs =>
          have hx : isWs x = false :=
            head_dropWhile_false isWs r1 x (by rw [← hu0, hu]; rfl)
          have hr1ne : r1 ≠ [] := by
            intro h
            rw [h] at hu0
            rw [hu0] at hu
            exact List.cons_ne_nil _ _ hu.symm
          have hl3 : collapseAux true u = collapseWs u := by
            rw [hu]
            simp [collapseAux, collapseWs, hx]
          have hulen : u.length ≤ n := by
            have h1 : u.length ≤ r1.length := (List.dropWhile_sublist isWs).length_le
            have h2 : cs.length = t.length + (w :: r1).length := by
              rw [← hcs, hr, List.length_append]
            have h3 : (c :: cs).length ≤ n + 1 := hlen
            simp [List.length_cons] at h2 h3
            omega
          have huhead : ∀ y, u.head? = some y → isWs y = false := by
            intro y hy
            rw [hu] at hy
            cases hy
            exact hx
          have hih := ih u hulen huhead
          have hwune : wordsWs u ≠ [] := by
            rw [hu, wordsWs_cons]
            simp [hx]
          have hends3 : endsWs (w :: r1) = endsWs u := by
            rw [endsWs_cons_of_ne_nil w r1 hr1ne, hu0]
            exact (endsWs_dropWhile_of_ne_nil isWs r1 (by rw [← hu0, hu]; simp)).symm
          rw [hl1, hl2, hl3, hih, hw1, hw2, hends1, hends3,
            joinWords_cons_of_ne_nil _ _ (hw2 ▸ hwune)]
          simp

theorem jsTrim_head_not_ws (l : Str) :
    ∀ x, (jsTrim l).head? = some x → isWs x = false := by
  intro x hx
  unfold jsTrim at hx
  rw [List.head?_reverse] at hx
  set A := l.dropWhile isWs with hA
  set B := A.reverse.dropWhile isWs with hB
  have hBne : B ≠ [] := by
    intro h
    rw [h] at hx
    simp at hx
  have h1 : B.getLast? = A.reverse.getLast? := by
    conv_rhs => rw [← List.takeWhile_append_dropWhile (p := isWs) (l := A.reverse)]
    exact (List.getLast?_append_of_ne_nil _ hBne).symm
  rw [h1, List.getLast?_reverse] at hx
  exact head_dropWhile_false isWs l x hx

theorem jsTrim_endsWs (l : Str) : endsWs (jsTrim l) = false := by
  unfold jsTrim endsWs
  rw [List.getLast?_reverse]
  cases hB : ((l.dropWhile isWs).reverse.dropWhile isWs).head? with
  | none => rfl
  | some x =>
    have h := head_dropWhile_false isWs (l.dropWhile isWs).reverse x hB
    simp [h]

theorem sanitize_eq_spec (l : Str) : sanitize l = specSanitize l := by
  unfold sanitize specSanitize collapseWs
  have h := collapse_eq_joinWords (jsTrim l).length (jsTrim l) le_rfl (jsTrim_head_not_ws l)
  rw [collapseWs] at h
  rw [h, jsTrim_endsWs]
  simp

theorem isAllowed_not_ws (c : Char) (h : isAllowed c = true) : isWs c = false := by
  cases hw : isWs c with
  | false => rfl
  | true =>
    exfalso
    unfold isAllowed at h
    unfold isWs at hw
    simp only [Bool.or_eq_true, Bool.and_eq_true, decide_eq_true_eq] at h hw
    omega

theorem sanitize_all_allowed (l : Str) : ∀ c ∈ sanitize l, isAllowed c = true := by
  intro c hc
  unfold sanitize at hc
  exact (List.mem_filter.mp hc).2

theorem dropWhile_eq_self_of_all (p : Char → Bool) (l : Str) (h : ∀ x ∈ l, p x = false) :
    l.dropWhile p = l := by
  cases l with
  | nil => rfl
  | cons c cs => simp [List.dropWhile_cons, h c (by simp)]

theorem jsTrim_eq_self_of_not_ws (l : Str) (h : ∀ x ∈ l, isWs x = false) : jsTrim l = l := by
  unfold jsTrim
  rw [dropWhile_eq_self_of_all isWs l h,
    dropWhile_eq_self_of_all isWs l.reverse (fun x hx => h x (List.mem_reverse.mp hx)),
    List.reverse_reverse]

theorem collapseWs_eq_self_of_not_ws (l : Str) (h : ∀ x ∈ l, isWs x = false) :
    collapseWs l = l := by
  have h1 := collapseAux_push_nonWs [] l h
  simpa [collapseWs, collapseAux] using h1

/-! ### Small facts about the handler pieces -/

theorem truthy_some_of_ne (cn : Str) (h : cn ≠ []) : truthy (some cn) = true := by
  cases cn with
  | nil => exact absurd rfl h
  | cons a as => rfl

theorem isEmpty_eq_false_of_ne (l : Str) (h : l ≠ []) : l.isEmpty = false := by
  cases l with
  | nil => exact absurd rfl h
  | cons a as => rfl

theorem erase_append_fresh (blobs : List Str) (b : Str) (h : b ∉ blobs) :
    (blobs ++ [b]).erase b = blobs := by
  induction blobs with
  | nil => simp
  | cons a as ih =>
    simp only [List.mem_cons, not_or] at h
    have hab : (a == b) = false := beq_eq_false_iff_ne.mpr fun he => h.1 he.symm
    simp [List.erase_cons, hab, ih h.2]

theorem nanoid_char_allowed (k : Nat) : isAllowed (nanoidAlphabet.getD k 'u') = true := by
  by_cases hk : k < nanoidAlphabet.length
  · rw [List.getD_eq_getElem?_getD, List.getElem?_eq_getElem hk, Option.getD_some]
    have hall : nanoidAlphabet.all isAllowed = true := by decide
    exact List.all_eq_true.mp hall _ (List.getElem_mem hk)
  · rw [List.getD_eq_getElem?_getD, List.getElem?_eq_none (Nat.le_of_not_lt hk)]
    decide

theorem nanoidM_length (seed : Nat → Nat) : (nanoidM seed 8).length = 8 := by
  simp [nanoidM]

theorem nanoidM_all_allowed (seed : Nat → Nat) : (nanoidM seed 8).all isAllowed = true := by
  refine List.all_eq_true.mpr ?_
  intro c hc
  simp only [nanoidM, List.mem_map] at hc
  obtain ⟨i, _, rfl⟩ := hc
  exact nanoid_char_allowed _

/-! ### The claims -/

/-- C5: for every non-empty customName string, the sanitized identifier
computed by the upload route equals the spec pipeline applied to it: trim
leading and trailing whitespace, then replace every maximal internal run of
whitespace with a single hyphen, then delete every character outside the
class of letters, digits, underscore and hyphen, in that order. -/
theorem c5_sanitize_matches_spec_pipeline (s : Str) (h : s ≠ []) :
    sanitize s = specSanitize s :=
  sanitize_eq_spec s

theorem c5_witness :
    ("  My  File!.pdf ".data ≠ []) ∧
      sanitize "  My  File!.pdf ".data = specSanitize "  My  File!.pdf ".data :=
  ⟨by decide, c5_sanitize_matches_spec_pipeline _ (by decide)⟩

/-- C6: sanitization is idempotent; applying the sanitizer of the upload
route to its own output returns that output unchanged. -/
theorem c6_sanitize_idempotent (s : Str) : sanitize (sanitize s) = sanitize s := by
  have hall := sanitize_all_allowed s
  have hws : ∀ c ∈ sanitize s, isWs c = false := fun c hc => isAllowed_not_ws c (hall c hc)
  calc sanitize (sanitize s)
      = (collapseWs (jsTrim (sanitize s))).filter isAllowed := rfl
    _ = (collapseWs (sanitize s)).filter isAllowed := by
        rw [jsTrim_eq_self_of_not_ws _ hws]
    _ = (sanitize s).filter isAllowed := by
        rw [collapseWs_eq_self_of_not_ws _ hws]
    _ = sanitize s := List.filter_eq_self.mpr hall

/-- C10: a customName field present but equal to the empty string is falsy
in the route condition, so the handler behaves exactly as when the field is
absent, and the identifier used on that path is the generated 8-character
one. -/
theorem c10_empty_custom_name (st : St) (file? : Option UploadedFile) (seed : Nat → Nat)
    (destroyOk : Bool) (now : Nat) (baseUrl : Str) :
    uploadRequest st file? (some []) seed destroyOk now baseUrl =
      uploadRequest st file? none seed destroyOk now baseUrl ∧
    (nanoidM seed 8).length = 8 := by
  constructor
  · cases file? with
    | none => rfl
    | some f => rfl
  · exact nanoidM_length seed

/-! ### Concrete example data for counterexamples and witnesses -/

/-- A registry record holding the custom name demo. -/
def exRecDemo : FileRecord :=
  ⟨"demo".data, "old.pdf".data, "uploads/old.pdf".data, some "application/pdf".data, [], 0⟩

/-- A registry record whose shortId collides with the generated id of the
all-zero seed. -/
def exRecGen : FileRecord :=
  ⟨"uuuuuuuu".data, "g.bin".data, "https://res.cloudinary.com/x/g".data,
   some "application/octet-stream".data, "inst/g1".data, 0⟩

/-- A freshly uploaded file as multer reports it. -/
def exFileNew : UploadedFile :=
  ⟨"new.pdf".data, "uploads/123-new.pdf".data, some "application/pdf".data, "inst/new123".data⟩

/-- A base URL for links. -/
def exBase : Str := "http://localhost:3000".data

/-- The all-zero randomness seed. -/
def exSeed : Nat → Nat := fun _ => 0

/-- C1 (counterexample): in the local-disk revision, an upload whose custom
name collides with an existing shortId is answered name-taken, yet the file
multer wrote for this attempt stays in the blob store, so the store does
hold a new blob attributable to the failed attempt. -/
theorem c1_counterexample :
    (uploadRequestLocal ⟨[exRecDemo], ["uploads/old.pdf".data]⟩ (some exFileNew)
        (some "demo".data) exSeed 5 exBase).1 = UploadResp.nameTaken ∧
    "uploads/123-new.pdf".data ∈
      (uploadRequestLocal ⟨[exRecDemo], ["uploads/old.pdf".data]⟩ (some exFileNew)
        (some "demo".data) exSeed 5 exBase).2.blobs ∧
    "uploads/123-new.pdf".data ∉ (["uploads/old.pdf".data] : List Str) := by
  decide

/-- C1 (amended): in the Cloudinary-backed upload route of backend.js, when
the cleanup destroy succeeds and the storage id of the new blob is fresh,
the colliding upload is answered name-taken with status 409 and the state
is left exactly as before the attempt: the just-written blob has been
deleted again. -/
theorem c1_name_taken_deletes_blob (st : St) (file : UploadedFile) (cn : Str) (r0 : FileRecord)
    (seed : Nat → Nat) (now : Nat) (baseUrl : Str)
    (hcn : cn ≠ []) (hsan : sanitize cn ≠ [])
    (hfound : findOne st.registry (sanitize cn) = some r0)
    (hfresh : file.filename ∉ st.blobs) :
    uploadRequest st (some file) (some cn) seed true now baseUrl =
      (UploadResp.nameTaken, st) ∧
    UploadResp.statusCode UploadResp.nameTaken = 409 := by
  refine ⟨?_, rfl⟩
  have hstep : uploadRequest st (some file) (some cn) seed true now baseUrl =
      (UploadResp.nameTaken,
        ⟨st.registry, (st.blobs ++ [file.filename]).erase file.filename⟩) := by
    simp [uploadRequest, truthy_some_of_ne cn hcn, isEmpty_eq_false_of_ne _ hsan, hfound]
  rw [hstep, erase_append_fresh st.blobs file.filename hfresh]

theorem c1_witness :
    uploadRequest ⟨[exRecDemo], ["uploads/old.pdf".data]⟩ (some exFileNew)
        (some "demo".data) exSeed true 5 exBase =
      (UploadResp.nameTaken, ⟨[exRecDemo], ["uploads/old.pdf".data]⟩) :=
  (c1_name_taken_deletes_blob ⟨[exRecDemo], ["uploads/old.pdf".data]⟩ exFileNew
    "demo".data exRecDemo exSeed 5 exBase
    (by decide) (by decide) (by decide) (by decide)).1

/-- C2 (counterexample): an upload whose custom name sanitizes to the empty
string is answered invalid-name, but the blob store has gained the blob the
multer middleware wrote before the handler body ran, and nothing deletes
it: the number of blob writes for the request is one, not zero. -/
theorem c2_counterexample :
    (uploadRequest ⟨[], []⟩ (some exFileNew) (some "!!!".data) exSeed true 5 exBase).1 =
      UploadResp.invalidName ∧
    (uploadRequest ⟨[], []⟩ (some exFileNew) (some "!!!".data) exSeed true 5 exBase).2.blobs =
      ["inst/new123".data] ∧
    (["inst/new123".data] : List Str) ≠ [] := by
  decide

/-- C2 (amended): an upload whose custom name sanitizes to the empty string
is answered invalid-name with status 400, but the storage write of the
multer middleware has already happened when the handler rejects, and the
blob persists in the store afterward. -/
theorem c2_invalid_name_still_writes_blob (st : St) (file : UploadedFile) (cn : Str)
    (seed : Nat → Nat) (destroyOk : Bool) (now : Nat) (baseUrl : Str)
    (hcn : cn ≠ []) (hsan : sanitize cn = []) :
    uploadRequest st (some file) (some cn) seed destroyOk now baseUrl =
      (UploadResp.invalidName, ⟨st.registry, st.blobs ++ [file.filename]⟩) ∧
    file.filename ∈ st.blobs ++ [file.filename] ∧
    UploadResp.statusCode UploadResp.invalidName = 400 := by
  refine ⟨?_, by simp, rfl⟩
  simp [uploadRequest, truthy_some_of_ne cn hcn, hsan]

theorem c2_witness :
    uploadRequest ⟨[], []⟩ (some exFileNew) (some "???".data) exSeed true 7 exBase =
      (UploadResp.invalidName, ⟨[], [] ++ ["inst/new123".data]⟩) :=
  (c2_invalid_name_still_writes_blob ⟨[], []⟩ exFileNew "???".data exSeed true 7 exBase
    (by decide) (by decide)).1

/-- C3 (counterexample): when the generated identifier already exists in
the registry, the pre-check is skipped, save rejects with the duplicate-key
conflict, and the route catch answers internal-error 500, not name-taken
409. -/
theorem c3_counterexample :
    (uploadRequest ⟨[exRecGen], ["inst/g1".data]⟩ (some exFileNew) none exSeed true 5
        exBase).1 = UploadResp.serverError ∧
    (uploadRequest ⟨[exRecGen], ["inst/g1".data]⟩ (some exFileNew) none exSeed true 5
        exBase).1 ≠ UploadResp.nameTaken ∧
    UploadResp.statusCode UploadResp.serverError = 500 := by
  decide

/-- C3 (amended): a conflict at commit time lands in the route catch, which
answers internal-error 500 and performs no blob cleanup; only the advisory
pre-check on a custom name produces the name-taken 409. -/
theorem c3_commit_conflict_500 (st : St) (file : UploadedFile) (seed : Nat → Nat)
    (destroyOk : Bool) (now : Nat) (baseUrl : Str) (r0 : FileRecord)
    (hcoll : findOne st.registry (nanoidM seed 8) = some r0) :
    uploadRequest st (some file) none seed destroyOk now baseUrl =
      (UploadResp.serverError, ⟨st.registry, st.blobs ++ [file.filename]⟩) ∧
    UploadResp.statusCode UploadResp.serverError = 500 := by
  refine ⟨?_, rfl⟩
  simp [uploadRequest, truthy, saveRecord, hcoll]

theorem c3_witness :
    uploadRequest ⟨[exRecGen], ["inst/g1".data]⟩ (some exFileNew) none exSeed false 9 exBase =
      (UploadResp.serverError, ⟨[exRecGen], ["inst/g1".data] ++ ["inst/new123".data]⟩) :=
  (c3_commit_conflict_500 ⟨[exRecGen], ["inst/g1".data]⟩ exFileNew exSeed false 9 exBase
    exRecGen (by decide)).1

/-- C4 (counterexample): when the cleanup destroy on the name-taken branch
fails, the awaited rejection lands in the route catch and the client
receives internal-error 500 instead of name-taken 409: the cleanup failure
does change the response. -/
theorem c4_counterexample :
    (uploadRequest ⟨[exRecDemo], ["uploads/old.pdf".data]⟩ (some exFileNew)
        (some "demo".data) exSeed false 5 exBase).1 = UploadResp.serverError ∧
    (uploadRequest ⟨[exRecDemo], ["uploads/old.pdf".data]⟩ (some exFileNew)
        (some "demo".data) exSeed false 5 exBase).1 ≠ UploadResp.nameTaken := by
  decide

/-- C4 (amended): on a name conflict with a failing cleanup destroy, the
route answers internal-error 500 rather than name-taken, and the orphaned
blob stays in the store. -/
theorem c4_cleanup_failure_overrides (st : St) (file : UploadedFile) (cn : Str)
    (r0 : FileRecord) (seed : Nat → Nat) (now : Nat) (baseUrl : Str)
    (hcn : cn ≠ []) (hsan : sanitize cn ≠ [])
    (hfound : findOne st.registry (sanitize cn) = some r0) :
    uploadRequest st (some file) (some cn) seed false now baseUrl =
      (UploadResp.serverError, ⟨st.registry, st.blobs ++ [file.filename]⟩) ∧
    UploadResp.serverError ≠ UploadResp.nameTaken := by
  refine ⟨?_, by decide⟩
  simp [uploadRequest, truthy_some_of_ne cn hcn, isEmpty_eq_false_of_ne _ hsan, hfound]

theorem c4_witness :
    uploadRequest ⟨[exRecDemo], []⟩ (some exFileNew) (some "demo".data) exSeed false 3 exBase =
      (UploadResp.serverError, ⟨[exRecDemo], [] ++ ["inst/new123".data]⟩) :=
  (c4_cleanup_failure_overrides ⟨[exRecDemo], []⟩ exFileNew "demo".data exRecDemo exSeed 3
    exBase (by decide) (by decide) (by decide)).1

/-- C7: an upload without customName that commits successfully stores and
links an identifier produced by nanoid with size 8: its length is exactly 8
and every character lies in the URL-safe class of letters, digits,
underscore and hyphen. -/
theorem c7_generated_id_shape (st : St) (file : UploadedFile) (seed : Nat → Nat)
    (destroyOk : Bool) (now : Nat) (baseUrl : Str)
    (hfree : findOne st.registry (nanoidM seed 8) = none) :
    uploadRequest st (some file) none seed destroyOk now baseUrl =
      (UploadResp.ok (baseUrl ++ fileRoute ++ nanoidM seed 8),
       ⟨st.registry ++ [⟨nanoidM seed 8, file.originalname, file.path, file.mimetype,
          file.filename, now⟩], st.blobs ++ [file.filename]⟩) ∧
    (nanoidM seed 8).length = 8 ∧
    (nanoidM seed 8).all isAllowed = true := by
  refine ⟨?_, nanoidM_length seed, nanoidM_all_allowed seed⟩
  simp [uploadRequest, truthy, saveRecord, hfree]

theorem c7_witness :
    uploadRequest ⟨[], []⟩ (some exFileNew) none exSeed true 0 exBase =
      (UploadResp.ok (exBase ++ fileRoute ++ nanoidM exSeed 8),
       ⟨[] ++ [⟨nanoidM exSeed 8, exFileNew.originalname, exFileNew.path, exFileNew.mimetype,
          exFileNew.filename, 0⟩], [] ++ ["inst/new123".data]⟩) ∧
    (nanoidM exSeed 8).length = 8 ∧
    (nanoidM exSeed 8).all isAllowed = true :=
  c7_generated_id_shape ⟨[], []⟩ exFileNew exSeed true 0 exBase (by decide)

/-- C8: a retrieval for a shortId that matches no record is answered with
the human-readable not-found page and status 404, whatever else the
registry holds, and no upstream blob fetch is performed. -/
theorem c8_unknown_id_404 (registry : List FileRecord) (sid : Str)
    (upstreamOf : Str → Upstream)
    (h : ∀ r ∈ registry, r.shortId ≠ sid) :
    retrieveProxy registry sid upstreamOf = (RetrieveResp.notFound notFoundHtml, []) ∧
    RetrieveResp.statusCode (RetrieveResp.notFound notFoundHtml) = 404 := by
  have hfind : findOne registry sid = none := by
    unfold findOne
    rw [List.find?_eq_none]
    intro r hr
    simpa using h r hr
  refine ⟨?_, rfl⟩
  simp [retrieveProxy, hfind]

theorem c8_witness :
    retrieveProxy [exRecDemo] "zzz".data (fun _ => ⟨0, UpstreamBehavior.ok []⟩) =
      (RetrieveResp.notFound notFoundHtml, []) :=
  (c8_unknown_id_404 [exRecDemo] "zzz".data (fun _ => ⟨0, UpstreamBehavior.ok []⟩)
    (by decide)).1

/-- C9: in the proxy-stream revision, for a found record the upstream fetch
runs under the 15000 ms axios timeout: exceeding it yields the 504 timeout
page, an upstream not-found answer yields the 404 storage page, and a
successful fetch pipes the body through with Content-Type taken from the
record and Content-Disposition attachment carrying the stored original
name. -/
theorem c9_proxy_stream_behavior (registry : List FileRecord) (sid : Str)
    (upstreamOf : Str → Upstream) (file : FileRecord)
    (h : findOne registry sid = some file) :
    (15000 < (upstreamOf file.fileUrl).duration →
      retrieveProxy registry sid upstreamOf =
        (RetrieveResp.gatewayTimeout timeoutHtml, [file.fileUrl]) ∧
      RetrieveResp.statusCode (RetrieveResp.gatewayTimeout timeoutHtml) = 504) ∧
    ((upstreamOf file.fileUrl).duration ≤ 15000 →
      (upstreamOf file.fileUrl).behavior = UpstreamBehavior.httpError 404 →
      retrieveProxy registry sid upstreamOf =
        (RetrieveResp.upstreamNotFound storageGoneHtml, [file.fileUrl]) ∧
      RetrieveResp.statusCode (RetrieveResp.upstreamNotFound storageGoneHtml) = 404) ∧
    (∀ body, (upstreamOf file.fileUrl).duration ≤ 15000 →
      (upstreamOf file.fileUrl).behavior = UpstreamBehavior.ok body →
      retrieveProxy registry sid upstreamOf =
        (RetrieveResp.okStream (file.mimeType.getD octetStream)
          (contentDispositionFor file.originalName) body, [file.fileUrl])) := by
  refine ⟨?_, ?_, ?_⟩
  · intro hd
    refine ⟨?_, rfl⟩
    simp [retrieveProxy, h, axiosGet, hd]
  · intro hd hb
    refine ⟨?_, rfl⟩
    simp [retrieveProxy, h, axiosGet, Nat.not_lt.mpr hd, hb]
  · intro body hd hb
    simp [retrieveProxy, h, axiosGet, Nat.not_lt.mpr hd, hb]

theorem c9_witness :
    retrieveProxy [exRecDemo] "demo".data (fun _ => ⟨20000, UpstreamBehavior.ok []⟩) =
      (RetrieveResp.gatewayTimeout timeoutHtml, [exRecDemo.fileUrl]) :=
  ((c9_proxy_stream_behavior [exRecDemo] "demo".data
      (fun _ => ⟨20000, UpstreamBehavior.ok []⟩) exRecDemo (by decide)).1
    (by decide)).1
